import Mathlib

/-!
Shallow embedding of the MVP_1 event-logger repository: the client beacon
(src/app.js) and the ingest endpoint (src/dopost.js).  Browser/host
primitives that the source calls (localStorage, Date, parseInt,
JSON.stringify, URLSearchParams) are modelled explicitly below; the two
source functions are then translated line by line on top of them.
-/

namespace EventLogger

/-! ### Association lists

Model for the key-value collections the source manipulates: localStorage,
Apps Script's form-field map `e.parameter`, URLSearchParams bodies, and
plain JS objects.  Insertion order is kept; lookup returns the first
binding. -/

/-- Lookup of the first binding of `key`, the shape shared by every
key-value map in the model. -/
def alistGet {α : Type} : List (String × α) → String → Option α
  | [], _ => none
  | (k, v) :: rest, key => if k = key then some v else alistGet rest key

/-- Client-side persistent storage (window.localStorage): a list of
key-value bindings, newest first. -/
abbrev Storage := List (String × String)

/-- Models localStorage.getItem: null (here none) when the key was never
set. -/
def lsGetItem (s : Storage) (key : String) : Option String :=
  alistGet s key

/-- Models localStorage.setItem: the new binding shadows any older one. -/
def lsSetItem (s : Storage) (key value : String) : Storage :=
  (key, value) :: s

/-- JS truthiness of a possibly-absent string: undefined/null and the
empty string are falsy, every other string is truthy.  This is the test
behind each of the source's bare `if (x)` checks on string values. -/
def truthy : Option String → Bool
  | none => false
  | some s => s ≠ ""

/-- Models the JS string `x || ''` idiom used for optional fields: the
value when truthy, the empty string otherwise. -/
def jsOrEmpty (o : Option String) : String :=
  if truthy o then o.getD "" else ""

/-- Models String.prototype.includes on character lists: some suffix of
the haystack starts with the needle. -/
def strIncludes (s pat : String) : Bool :=
  (List.range (s.data.length + 1)).any fun i => pat.data.isPrefixOf (s.data.drop i)

/-! ### JS number printing (Number.prototype.toString)

The client calls Date.now().toString() and Date.now().toString(36); both
receive a nonnegative integer, for which JS prints plain base-10 (resp.
base-36) digits, most significant first. -/

/-- Decimal digit character for a digit value below ten. -/
def digitChar10 (d : Nat) : Char :=
  match d with
  | 0 => '0' | 1 => '1' | 2 => '2' | 3 => '3' | 4 => '4'
  | 5 => '5' | 6 => '6' | 7 => '7' | 8 => '8' | _ => '9'

/-- Base-b digit values of n, least significant first, with an explicit
fuel argument so the recursion is structural and computes by kernel
reduction. -/
def digitsRevFuel (b : Nat) : Nat → Nat → List Nat
  | 0, _ => []
  | fuel + 1, n => if n = 0 then [] else n % b :: digitsRevFuel b fuel (n / b)

/-- Base-b digit values of n, least significant first. -/
def natDigitsRev (b n : Nat) : List Nat :=
  digitsRevFuel b n n

/-- Models n.toString() for a nonnegative integer n: its base-10 digits. -/
def jsNatToString (n : Nat) : String :=
  if n = 0 then "0" else String.mk (((natDigitsRev 10 n).reverse).map digitChar10)

/-- Base-36 digit character (0-9 then a-z), as used by toString(36). -/
def digitChar36 (d : Nat) : Char :=
  if d < 10 then digitChar10 d else Char.ofNat (87 + d)

/-- Models n.toString(36) for a nonnegative integer n. -/
def jsNatToString36 (n : Nat) : String :=
  if n = 0 then "0" else String.mk (((natDigitsRev 36 n).reverse).map digitChar36)

/-! ### JS parseInt

Model of the global parseInt applied to a string with no radix argument:
skip leading whitespace, read an optional sign, detect a 0x/0X prefix
(radix 16), then take the longest prefix of digits of the radix; no
digits means NaN, modelled as none. -/

/-- Value of a decimal digit character, none for non-digits. -/
def decDigitVal (c : Char) : Option Nat :=
  if 48 ≤ c.toNat ∧ c.toNat ≤ 57 then some (c.toNat - 48) else none

/-- Value of a hexadecimal digit character, none for non-digits. -/
def hexDigitVal (c : Char) : Option Nat :=
  if 48 ≤ c.toNat ∧ c.toNat ≤ 57 then some (c.toNat - 48)
  else if 97 ≤ c.toNat ∧ c.toNat ≤ 102 then some (c.toNat - 87)
  else if 65 ≤ c.toNat ∧ c.toNat ≤ 70 then some (c.toNat - 55)
  else none

/-- Magnitude of the longest digit prefix under a digit-value function,
none when the first character is already not a digit. -/
def parseIntCore (digitVal : Char → Option Nat) (radix : Nat) (cs : List Char) : Option Nat :=
  let ds := (cs.takeWhile fun c => (digitVal c).isSome).map fun c => (digitVal c).getD 0
  if ds.isEmpty then none else some (ds.foldl (fun a d => radix * a + d) 0)

/-- Whether the character list starts with the 0x/0X hexadecimal
prefix. -/
def hasHexMark : List Char → Bool
  | c0 :: c1 :: _ => c0 = '0' && (c1 = 'x' || c1 = 'X')
  | _ => false

/-- Unsigned part of parseInt: radix 16 after a 0x/0X prefix, radix 10
otherwise. -/
def parseIntMag (cs : List Char) : Option Nat :=
  if hasHexMark cs then parseIntCore hexDigitVal 16 (cs.drop 2)
  else parseIntCore decDigitVal 10 cs

/-- Sign handling of parseInt, applied after whitespace was skipped. -/
def parseIntSign : List Char → Option Int
  | [] => none
  | c :: rest =>
    if c = '-' then (parseIntMag rest).map fun n => -(n : Int)
    else if c = '+' then (parseIntMag rest).map fun n => (n : Int)
    else (parseIntMag (c :: rest)).map fun n => (n : Int)

/-- Models parseInt(s) with no radix argument; none stands for NaN. -/
def parseIntJS (s : String) : Option Int :=
  parseIntSign (s.data.dropWhile Char.isWhitespace)

/-! ### JS Date(ms).toISOString()

A time value is valid when its magnitude is at most 8.64e15 ms
(ECMA-262); toISOString on an invalid date throws a RangeError with
message "Invalid time value".  Calendar conversion is the standard civil
from-days algorithm on the proleptic Gregorian calendar. -/

/-- Whether an integer millisecond count is a valid ECMAScript time
value. -/
def jsTimeValid (ms : Int) : Bool :=
  ms.natAbs ≤ 8640000000000000

/-- Left-pad the decimal form of n with zeros to the given width. -/
def padNum (width n : Nat) : String :=
  let s := jsNatToString n
  String.mk (List.replicate (width - s.length) '0') ++ s

/-- Year field of an ISO string: four digits when in 0..9999, otherwise
the expanded six-digit form with an explicit sign. -/
def isoYearString (y : Int) : String :=
  if 0 ≤ y ∧ y ≤ 9999 then padNum 4 y.toNat
  else (if y < 0 then "-" else "+") ++ padNum 6 y.natAbs

/-- Civil date (year, month, day) for a count of days since 1970-01-01. -/
def civilFromDays (days : Int) : Int × Nat × Nat :=
  let z : Int := days + 719468
  let era : Int := Int.fdiv z 146097
  let doe : Nat := (z - era * 146097).toNat
  let yoe : Nat := (doe - doe / 1460 + doe / 36524 - doe / 146096) / 365
  let doy : Nat := doe - (365 * yoe + yoe / 4 - yoe / 100)
  let mp : Nat := (5 * doy + 2) / 153
  let d : Nat := doy - (153 * mp + 2) / 5 + 1
  let m : Nat := if mp < 10 then mp + 3 else mp - 9
  let y : Int := (yoe : Int) + era * 400 + (if m ≤ 2 then 1 else 0)
  (y, m, d)

/-- ISO-8601 rendering of a valid time value (UTC, millisecond
precision), as produced by Date.prototype.toISOString. -/
def isoFromMs (ms : Int) : String :=
  let days : Int := Int.fdiv ms 86400000
  let msod : Nat := (ms - days * 86400000).toNat
  let ymd := civilFromDays days
  isoYearString ymd.1 ++ "-" ++ padNum 2 ymd.2.1 ++ "-" ++ padNum 2 ymd.2.2 ++
    "T" ++ padNum 2 (msod / 3600000) ++ ":" ++ padNum 2 (msod % 3600000 / 60000) ++
    ":" ++ padNum 2 (msod % 60000 / 1000) ++ "." ++ padNum 3 (msod % 1000) ++ "Z"

/-- Models new Date(x).toISOString() for x = parseInt(...): none when the
argument was NaN or out of the valid range, where toISOString throws. -/
def dateToISOString : Option Int → Option String
  | none => none
  | some ms => if jsTimeValid ms then some (isoFromMs ms) else none

/-! ### JS strings: startsWith / endsWith -/

/-- Models String.prototype.trim: strip whitespace from both ends. -/
def jsTrim (s : String) : String :=
  String.mk ((s.data.dropWhile Char.isWhitespace).reverse.dropWhile Char.isWhitespace).reverse

/-- Models String.prototype.startsWith. -/
def jsStartsWith (s pat : String) : Bool :=
  pat.data.isPrefixOf s.data

/-- Models String.prototype.endsWith. -/
def jsEndsWith (s pat : String) : Bool :=
  pat.data.isSuffixOf s.data

/-! ### JS values and JSON.stringify

The client serializes its metadata object with JSON.stringify.  A JS
value is modelled by the Json type (numbers restricted to integers,
which is all the beacon ever produces); objects are ordered field lists
with distinct keys, and spread-merge updates an existing key in place or
appends a new one, as JS object spread does. -/

inductive Json where
  | null
  | bool (b : Bool)
  | num (n : Int)
  | str (s : String)
  | arr (elems : List Json)
  | obj (members : List (String × Json))

/-- Lowercase hexadecimal digit character. -/
def hexDigitChar (d : Nat) : Char :=
  if d < 10 then digitChar10 d else Char.ofNat (87 + d)

/-- JSON escaping of one character inside a quoted string. -/
def escapeChar (c : Char) : List Char :=
  if c = '"' then ['\\', '"']
  else if c = '\\' then ['\\', '\\']
  else if c = '\x08' then ['\\', 'b']
  else if c = '\t' then ['\\', 't']
  else if c = '\n' then ['\\', 'n']
  else if c = '\x0c' then ['\\', 'f']
  else if c = '\r' then ['\\', 'r']
  else if c.toNat < 32 then ['\\', 'u', '0', '0', hexDigitChar (c.toNat / 16), hexDigitChar (c.toNat % 16)]
  else [c]

/-- Quoted, escaped JSON rendering of a string. -/
def jsonQuote (s : String) : String :=
  "\"" ++ String.mk (s.data.map escapeChar).flatten ++ "\""

/-- Decimal rendering of an integer, with a leading minus sign when
negative. -/
def jsIntToString (i : Int) : String :=
  if i < 0 then "-" ++ jsNatToString i.natAbs else jsNatToString i.natAbs

mutual

/-- Models JSON.stringify on the modelled JS values. -/
def Json.stringify : Json → String
  | .null => "null"
  | .bool true => "true"
  | .bool false => "false"
  | .num i => jsIntToString i
  | .str s => jsonQuote s
  | .arr xs => "[" ++ stringifyArr xs ++ "]"
  | .obj ms => "\x7b" ++ stringifyObj ms ++ "\x7d"

/-- Comma-separated rendering of array elements. -/
def stringifyArr : List Json → String
  | [] => ""
  | [x] => Json.stringify x
  | x :: xs => Json.stringify x ++ "," ++ stringifyArr xs

/-- Comma-separated rendering of object members. -/
def stringifyObj : List (String × Json) → String
  | [] => ""
  | [(k, v)] => jsonQuote k ++ ":" ++ Json.stringify v
  | (k, v) :: ms => jsonQuote k ++ ":" ++ Json.stringify v ++ "," ++ stringifyObj ms

end

/-- Models assigning a field of a JS object: overwrite in place when the
key exists, append otherwise. -/
def objSet (o : List (String × Json)) (k : String) (v : Json) : List (String × Json) :=
  if (alistGet o k).isSome then o.map fun p => if p.1 = k then (k, v) else p
  else o ++ [(k, v)]

/-- Models the object literal with spread used by the beacon: start from
the base fields and assign every field of the spread object in order, so
spread fields win on key collision. -/
def objMergeSpread (base ext : List (String × Json)) : List (String × Json) :=
  ext.foldl (fun acc p => objSet acc p.1 p.2) base

/-! ### Ingest endpoint (src/dopost.js, doPost)

The Apps Script event carries e.postData.type, e.postData.contents and
the decoded form-field map e.parameter.  The two host effects the
handler performs, JSON.parse of a JSON body and the sheet lookup plus
appendRow, are passed in as functions returning Except, an exception
being modelled as an error value that the surrounding try/catch turns
into the failure response. -/

structure PostData where
  type : String
  contents : String

structure PostEvent where
  postData : PostData
  parameter : List (String × String)

/-- JSON body of the handler's response: ok, plus the error message
carried on failure. -/
structure JsonResponse where
  ok : Bool
  error : Option String
deriving DecidableEq

/-- Content-type dispatch of doPost (lines 16-24): form fields are read
from e.parameter, JSON bodies are parsed, anything else throws. -/
def doPostParams (jsonParse : String → Except String (List (String × String)))
    (e : PostEvent) : Except String (List (String × String)) :=
  if e.postData.type = "application/x-www-form-urlencoded" then .ok e.parameter
  else if e.postData.type = "application/json" then jsonParse e.postData.contents
  else .error ("Unsupported content type: " ++ e.postData.type)

/-- Validation and row assembly of doPost (lines 27-39): the three
required fields must be truthy, the timestamp string goes through
parseInt and toISOString, and the row is built in fixed column order
with variant and meta defaulted to the empty string. -/
def buildRow (params : List (String × String)) : Except String (List String) :=
  if ¬ (truthy (alistGet params "event") ∧ truthy (alistGet params "userId")
      ∧ truthy (alistGet params "ts")) then
    .error "Missing required parameters"
  else
    match dateToISOString (parseIntJS ((alistGet params "ts").getD "")) with
    | none => .error "Invalid time value"
    | some iso =>
      .ok [iso, (alistGet params "event").getD "", jsOrEmpty (alistGet params "variant"),
        (alistGet params "userId").getD "", jsOrEmpty (alistGet params "meta")]

/-- The doPost handler: the try body parses, validates, builds the row
and appends it, and any thrown error is caught and returned as the
failure response.  The second component is the row appended to the
store, none when nothing was appended. -/
def doPost (jsonParse : String → Except String (List (String × String)))
    (append : List String → Except String Unit)
    (e : PostEvent) : JsonResponse × Option (List String) :=
  match doPostParams jsonParse e with
  | .error msg => ({ ok := false, error := some msg }, none)
  | .ok params =>
    match buildRow params with
    | .error msg => ({ ok := false, error := some msg }, none)
    | .ok row =>
      match append row with
      | .error msg => ({ ok := false, error := some msg }, none)
      | .ok _ => ({ ok := true, error := none }, some row)

/-- Store stand-in whose appendRow always succeeds. -/
def appendAlwaysOk : List String → Except String Unit :=
  fun _ => .ok ()

/-! ### Client beacon (src/app.js)

The browser ambient state read during one submission: the two Date.now()
calls (one inside identifier generation, one for the ts field), the
random component of a fresh identifier, window.location.pathname and
navigator.userAgent. -/

structure ClientEnv where
  uidNowMs : Nat
  uidRandPart : String
  nowMs : Nat
  pagePath : String
  userAgent : String

/-- Argument of sendLogSimple: the event kind, the optional variant and
the optional caller metadata object (empty list when absent, which is
what spreading undefined amounts to). -/
structure Payload where
  event : String
  variant : Option String
  meta : List (String × Json)

/-- The identifier synthesized by getOrCreateUserId on a miss (app.js
line 38). -/
def userIdString (nowMs : Nat) (randPart : String) : String :=
  "usr_" ++ jsNatToString36 nowMs ++ "_" ++ randPart

/-- Models getOrCreateUserId (app.js lines 34-42): return the stored
identifier when truthy, otherwise synthesize, persist and return a fresh
one. -/
def getOrCreateUserId (nowMs : Nat) (randPart : String) (s : Storage) : String × Storage :=
  let userId := lsGetItem s "uid"
  if truthy userId = false then
    let fresh := userIdString nowMs randPart
    (fresh, lsSetItem s "uid" fresh)
  else (userId.getD "", s)

/-- The merged metadata object of sendLogSimple (app.js lines 98-102). -/
def metaMerged (env : ClientEnv) (p : Payload) : List (String × Json) :=
  objMergeSpread [("page", .str env.pagePath), ("ua", .str env.userAgent)] p.meta

/-- Observable outcome of one sendLogSimple call up to the fetch: either
a configuration error with the status message shown (no request sent),
or the URLSearchParams body of the single POST issued. -/
inductive SendOutcome where
  | configError (msg : String)
  | sent (body : List (String × String))
deriving DecidableEq

/-- Models sendLogSimple (app.js lines 75-110) up to the network call:
the gas_url guards, then the URLSearchParams body built in append
order. -/
def sendLogSimple (env : ClientEnv) (s : Storage) (p : Payload) : SendOutcome × Storage :=
  let gasUrl := lsGetItem s "gas_url"
  if truthy gasUrl = false then
    (.configError "Missing Web App URL. Please save a valid URL first.", s)
  else if jsEndsWith (gasUrl.getD "") "/exec" = false then
    (.configError "URL must end with /exec", s)
  else
    let uid := getOrCreateUserId env.uidNowMs env.uidRandPart s
    let body := [("event", p.event)]
      ++ (match p.variant with
          | some v => if v ≠ "" then [("variant", v)] else []
          | none => [])
      ++ [("userId", uid.1), ("ts", jsNatToString env.nowMs),
        ("meta", Json.stringify (.obj (metaMerged env p)))]
    (.sent body, uid.2)

/-- Whether the stored endpoint URL passes both sendLogSimple guards. -/
def gasUrlOk (s : Storage) : Bool :=
  truthy (lsGetItem s "gas_url") && jsEndsWith ((lsGetItem s "gas_url").getD "") "/exec"

/-- Models the saveUrl click handler (app.js lines 145-158): trim, reject
empty input, warn on an implausible URL, persist and report success.
The first component lists the status messages shown, in order, each with
its isError flag. -/
def saveUrlClick (value : String) (s : Storage) : List (String × Bool) × Storage :=
  let url := jsTrim value
  if url = "" then ([("Please enter a URL", true)], s)
  else
    let warnings :=
      if jsStartsWith url "https://" = false ∨ strIncludes url "google.com" = false then
        [("Warning: URL may not be valid", true)]
      else []
    (warnings ++ [("URL saved", false)], lsSetItem s "gas_url" url)

/-! ### Lemmas: digits, parseInt round-trip -/

theorem digitsRevFuel_eq_digits {b : Nat} (hb : 1 < b) :
    ∀ fuel n, n ≤ fuel → digitsRevFuel b fuel n = Nat.digits b n := by
  intro fuel
  induction fuel with
  | zero =>
    intro n hn
    have h0 : n = 0 := Nat.le_zero.mp hn
    subst h0
    simp [digitsRevFuel]
  | succ fuel ih =>
    intro n hn
    by_cases h0 : n = 0
    · subst h0; simp [digitsRevFuel]
    · rw [show digitsRevFuel b (fuel + 1) n
          = if n = 0 then [] else n % b :: digitsRevFuel b fuel (n / b) from rfl]
      rw [if_neg h0, Nat.digits_def' hb (Nat.pos_of_ne_zero h0)]
      have hdiv : n / b < n := Nat.div_lt_self (Nat.pos_of_ne_zero h0) hb
      rw [ih (n / b) (by omega)]

theorem natDigitsRev_eq_digits {b : Nat} (hb : 1 < b) (n : Nat) :
    natDigitsRev b n = Nat.digits b n :=
  digitsRevFuel_eq_digits hb n n le_rfl

theorem decDigitVal_digitChar10 {d : Nat} (hd : d < 10) :
    decDigitVal (digitChar10 d) = some d := by
  interval_cases d <;> decide

theorem digitChar10_not_whitespace (d : Nat) : (digitChar10 d).isWhitespace = false := by
  unfold digitChar10
  split <;> decide

theorem digitChar10_ne_dash (d : Nat) : digitChar10 d ≠ '-' := by
  unfold digitChar10
  split <;> decide

theorem digitChar10_ne_plus (d : Nat) : digitChar10 d ≠ '+' := by
  unfold digitChar10
  split <;> decide

theorem digitChar10_ne_zero_char {d : Nat} (hd : d < 10) (hne : d ≠ 0) :
    digitChar10 d ≠ '0' := by
  interval_cases d
  · exact absurd rfl hne
  all_goals decide

theorem foldl_mul_add_reverse (b : Nat) (L : List Nat) (a : Nat) :
    L.reverse.foldl (fun acc d => b * acc + d) a = a * b ^ L.length + Nat.ofDigits b L := by
  induction L generalizing a with
  | nil => simp [Nat.ofDigits]
  | cons d L ih =>
    rw [List.reverse_cons, List.foldl_append, ih]
    simp only [List.foldl_cons, List.foldl_nil, Nat.ofDigits_cons, List.length_cons]
    ring

theorem parseIntJS_jsNatToString (n : Nat) : parseIntJS (jsNatToString n) = some (n : Int) := by
  by_cases h0 : n = 0
  · subst h0; decide
  · have hL : Nat.digits 10 n ≠ [] := Nat.digits_ne_nil_iff_ne_zero.mpr h0
    have hlt : ∀ d ∈ Nat.digits 10 n, d < 10 := fun d hd =>
      Nat.digits_lt_base (by norm_num) hd
    obtain ⟨d, M, hrev⟩ : ∃ d M, (Nat.digits 10 n).reverse = d :: M := by
      cases hR : (Nat.digits 10 n).reverse with
      | nil => exact absurd (List.reverse_eq_nil_iff.mp hR) hL
      | cons d M => exact ⟨d, M, rfl⟩
    have hLM : Nat.digits 10 n = M.reverse ++ [d] := by
      have h := congrArg List.reverse hrev
      simpa using h
    have hdmem : d ∈ Nat.digits 10 n := by rw [hLM]; simp
    have hd10 : d < 10 := hlt d hdmem
    have hdne : d ≠ 0 := by
      have hlast : (Nat.digits 10 n).getLast? = some d := by
        rw [hLM]; exact List.getLast?_concat _
      have hlast' : (Nat.digits 10 n).getLast? = some ((Nat.digits 10 n).getLast hL) :=
        List.getLast?_eq_getLast_of_ne_nil hL
      have hgl : (Nat.digits 10 n).getLast hL = d := by
        rw [hlast'] at hlast
        exact Option.some_injective _ hlast
      rw [← hgl]
      exact Nat.getLast_digit_ne_zero 10 h0
    have hdata : (jsNatToString n).data = digitChar10 d :: M.map digitChar10 := by
      rw [jsNatToString, if_neg h0, natDigitsRev_eq_digits (by norm_num), hrev]
      rfl
    rw [parseIntJS, hdata]
    rw [List.dropWhile_cons, digitChar10_not_whitespace]
    simp only [Bool.false_eq_true, if_false]
    rw [show parseIntSign (digitChar10 d :: M.map digitChar10)
        = if digitChar10 d = '-' then (parseIntMag (M.map digitChar10)).map fun n => -(n : Int)
          else if digitChar10 d = '+' then (parseIntMag (M.map digitChar10)).map fun n => (n : Int)
          else (parseIntMag (digitChar10 d :: M.map digitChar10)).map fun n => (n : Int) from rfl]
    rw [if_neg (digitChar10_ne_dash d), if_neg (digitChar10_ne_plus d)]
    have hhex : hasHexMark (digitChar10 d :: M.map digitChar10) = false := by
      cases hM : M.map digitChar10 with
      | nil => rfl
      | cons c rest =>
        show (decide (digitChar10 d = '0') && (decide (c = 'x') || decide (c = 'X'))) = false
        rw [decide_eq_false (digitChar10_ne_zero_char hd10 hdne)]
        rfl
    rw [parseIntMag, hhex]
    simp only [Bool.false_eq_true, if_false]
    have hchars : digitChar10 d :: M.map digitChar10 = (Nat.digits 10 n).reverse.map digitChar10 := by
      rw [hrev]; rfl
    rw [hchars, parseIntCore]
    have hallmem : ∀ c ∈ (Nat.digits 10 n).reverse.map digitChar10, ((decDigitVal c).isSome : Bool) = true := by
      intro c hc
      obtain ⟨e, he, rfl⟩ := List.mem_map.mp hc
      have he10 : e < 10 := hlt e (List.mem_reverse.mp he)
      rw [decDigitVal_digitChar10 he10]
      rfl
    rw [List.takeWhile_eq_self_iff.mpr hallmem]
    have hmap : ((Nat.digits 10 n).reverse.map digitChar10).map (fun c => (decDigitVal c).getD 0)
        = (Nat.digits 10 n).reverse := by
      rw [List.map_map]
      have hcongr : ∀ e ∈ (Nat.digits 10 n).reverse,
          ((fun c => (decDigitVal c).getD 0) ∘ digitChar10) e = id e := by
        intro e he
        have he10 : e < 10 := hlt e (List.mem_reverse.mp he)
        simp [Function.comp, decDigitVal_digitChar10 he10]
      rw [List.map_congr_left hcongr, List.map_id]
    rw [hmap]
    have hne : ((Nat.digits 10 n).reverse.isEmpty : Bool) = false := by
      rw [hrev]; rfl
    rw [hne]
    simp only [Bool.false_eq_true, if_false]
    rw [foldl_mul_add_reverse 10 (Nat.digits 10 n) 0, Nat.ofDigits_digits]
    simp

theorem jsNatToString_ne_empty (n : Nat) : jsNatToString n ≠ "" := by
  intro h
  have hd := congrArg String.data h
  by_cases h0 : n = 0
  · subst h0; exact absurd hd (by decide)
  · rw [jsNatToString, if_neg h0] at hd
    have hL : Nat.digits 10 n ≠ [] := Nat.digits_ne_nil_iff_ne_zero.mpr h0
    rw [natDigitsRev_eq_digits (by norm_num)] at hd
    have : (Nat.digits 10 n).reverse.map digitChar10 = [] := hd
    simp [List.reverse_eq_nil_iff] at this
    exact hL this

/-! ### Lemmas: association lists, object spread, identifier management -/

theorem alistGet_cons_self {α : Type} (k : String) (v : α) (l : List (String × α)) :
    alistGet ((k, v) :: l) k = some v := by
  simp [alistGet]

theorem alistGet_cons_ne {α : Type} {k key : String} (v : α) (l : List (String × α))
    (h : k ≠ key) : alistGet ((k, v) :: l) key = alistGet l key := by
  simp [alistGet, h]

theorem alistGet_append_of_none {α : Type} {l₁ : List (String × α)} {key : String}
    (h : alistGet l₁ key = none) (l₂ : List (String × α)) :
    alistGet (l₁ ++ l₂) key = alistGet l₂ key := by
  induction l₁ with
  | nil => rfl
  | cons p rest ih =>
    rw [alistGet] at h
    by_cases hk : p.1 = key
    · rw [if_pos hk] at h; exact absurd h (by simp)
    · rw [if_neg hk] at h
      show alistGet (p :: (rest ++ l₂)) key = alistGet l₂ key
      rw [show alistGet (p :: (rest ++ l₂)) key
          = if p.1 = key then some p.2 else alistGet (rest ++ l₂) key from rfl]
      rw [if_neg hk]
      exact ih h

theorem alistGet_eq_none_of_not_mem {α : Type} {l : List (String × α)} {key : String}
    (h : key ∉ l.map Prod.fst) : alistGet l key = none := by
  induction l with
  | nil => rfl
  | cons p rest ih =>
    simp only [List.map_cons, List.mem_cons] at h
    push_neg at h
    rw [show alistGet (p :: rest) key = if p.1 = key then some p.2 else alistGet rest key from rfl]
    rw [if_neg (fun hk => h.1 hk.symm)]
    exact ih h.2

theorem alistGet_cons {α : Type} (p : String × α) (l : List (String × α)) (key : String) :
    alistGet (p :: l) key = if p.1 = key then some p.2 else alistGet l key := by
  cases p
  rfl

theorem alistGet_mapSet_self (o : List (String × Json)) (k : String) (v : Json)
    (hs : (alistGet o k).isSome) :
    alistGet (o.map fun p => if p.1 = k then (k, v) else p) k = some v := by
  induction o with
  | nil => exact absurd hs (by simp [alistGet])
  | cons p rest ih =>
    by_cases hk : p.1 = k
    · simp only [List.map_cons, if_pos hk]
      exact alistGet_cons_self k v _
    · simp only [List.map_cons, if_neg hk]
      rw [alistGet_cons, if_neg hk]
      apply ih
      rw [alistGet_cons, if_neg hk] at hs
      exact hs

theorem alistGet_mapSet_ne (o : List (String × Json)) {k : String} (v : Json) {key : String}
    (h : k ≠ key) :
    alistGet (o.map fun p => if p.1 = k then (k, v) else p) key = alistGet o key := by
  induction o with
  | nil => rfl
  | cons p rest ih =>
    by_cases hk : p.1 = k
    · simp only [List.map_cons, if_pos hk]
      rw [alistGet_cons, alistGet_cons]
      simp only [if_neg h, if_neg (show p.1 ≠ key by rw [hk]; exact h)]
      exact ih
    · simp only [List.map_cons, if_neg hk]
      rw [alistGet_cons, alistGet_cons, ih]

theorem alistGet_append_single_ne {α : Type} (o : List (String × α)) {k : String} (v : α)
    {key : String} (h : k ≠ key) : alistGet (o ++ [(k, v)]) key = alistGet o key := by
  induction o with
  | nil => simp [alistGet, h]
  | cons p rest ih =>
    rw [List.cons_append, alistGet_cons, alistGet_cons, ih]

theorem alistGet_objSet_self (o : List (String × Json)) (k : String) (v : Json) :
    alistGet (objSet o k v) k = some v := by
  rw [objSet]
  by_cases hs : (alistGet o k).isSome
  · rw [if_pos hs]
    exact alistGet_mapSet_self o k v hs
  · rw [if_neg hs]
    have hnone : alistGet o k = none := by
      cases h : alistGet o k with
      | none => rfl
      | some v' => rw [h] at hs; exact absurd (by simp) hs
    rw [alistGet_append_of_none hnone]
    exact alistGet_cons_self k v []

theorem alistGet_objSet_ne (o : List (String × Json)) {k : String} (v : Json) {key : String}
    (h : k ≠ key) : alistGet (objSet o k v) key = alistGet o key := by
  rw [objSet]
  by_cases hs : (alistGet o k).isSome
  · rw [if_pos hs]
    exact alistGet_mapSet_ne o v h
  · rw [if_neg hs]
    exact alistGet_append_single_ne o v h

theorem alistGet_objMergeSpread_of_none {base ext : List (String × Json)} {key : String}
    (h : alistGet ext key = none) :
    alistGet (objMergeSpread base ext) key = alistGet base key := by
  induction ext generalizing base with
  | nil => rfl
  | cons p rest ih =>
    rw [alistGet_cons] at h
    by_cases hk : p.1 = key
    · rw [if_pos hk] at h; exact absurd h (by simp)
    · rw [if_neg hk] at h
      show alistGet (objMergeSpread (objSet base p.1 p.2) rest) key = alistGet base key
      rw [ih h, alistGet_objSet_ne base p.2 hk]

theorem alistGet_objMergeSpread_of_some {base ext : List (String × Json)} {key : String}
    {v : Json} (hnd : (ext.map Prod.fst).Nodup) (h : alistGet ext key = some v) :
    alistGet (objMergeSpread base ext) key = some v := by
  induction ext generalizing base with
  | nil => exact absurd h (by simp [alistGet])
  | cons p rest ih =>
    rw [List.map_cons, List.nodup_cons] at hnd
    rw [alistGet_cons] at h
    by_cases hk : p.1 = key
    · rw [if_pos hk] at h
      have hrest : alistGet rest key = none := by
        apply alistGet_eq_none_of_not_mem
        rw [← hk]
        exact hnd.1
      show alistGet (objMergeSpread (objSet base p.1 p.2) rest) key = some v
      rw [alistGet_objMergeSpread_of_none hrest, hk, ← h]
      exact alistGet_objSet_self base key p.2
    · rw [if_neg hk] at h
      exact ih hnd.2 h

/-! ### Lemmas: identifier management -/

theorem userIdString_ne_empty (n : Nat) (r : String) : userIdString n r ≠ "" := by
  intro h
  have hd := congrArg String.data h
  rw [userIdString] at hd
  simp [String.data_append] at hd

theorem getOrCreateUserId_fst_ne_empty (n : Nat) (r : String) (s : Storage) :
    (getOrCreateUserId n r s).1 ≠ "" := by
  rw [getOrCreateUserId]
  cases h : lsGetItem s "uid" with
  | none => simpa [truthy] using userIdString_ne_empty n r
  | some u =>
    by_cases hu : u = ""
    · subst hu
      simpa [truthy] using userIdString_ne_empty n r
    · simp [truthy, hu]

theorem getOrCreateUserId_stores (n : Nat) (r : String) (s : Storage) :
    lsGetItem (getOrCreateUserId n r s).2 "uid" = some (getOrCreateUserId n r s).1 := by
  rw [getOrCreateUserId]
  cases h : lsGetItem s "uid" with
  | none => simp [truthy, lsGetItem, lsSetItem, alistGet]
  | some u =>
    by_cases hu : u = ""
    · subst hu
      simp [truthy, lsGetItem, lsSetItem, alistGet]
    · simp [truthy, hu, h]

theorem getOrCreateUserId_of_stored {s : Storage} {u : String} (n : Nat) (r : String)
    (h : lsGetItem s "uid" = some u) (hu : u ≠ "") :
    getOrCreateUserId n r s = (u, s) := by
  rw [getOrCreateUserId, h]
  simp [truthy, hu]

/-! ### Further lemmas used by the claims -/

/-- Discriminator of the send outcome: true exactly when the submission
stopped with a configuration error, i.e. no request was sent. -/
def SendOutcome.isConfigError : SendOutcome → Bool
  | .configError _ => true
  | .sent _ => false

theorem stringify_obj_ne_empty (ms : List (String × Json)) : Json.stringify (.obj ms) ≠ "" := by
  intro h
  have hd := congrArg String.data h
  rw [Json.stringify] at hd
  simp [String.data_append] at hd

/-! ### Claims -/

/-- C1: a form-encoded POST carrying event "heartbeat", userId "u1" and
ts "1700000000000", with no variant and no meta field, makes doPost
append exactly the row ["2023-11-14T22:13:20.000Z", "heartbeat", "",
"u1", ""] and answer the success body, whatever the JSON parser would
have done. -/
theorem doPost_heartbeat_form_appends_row
    (jsonParse : String → Except String (List (String × String))) :
    doPost jsonParse appendAlwaysOk
      { postData := { type := "application/x-www-form-urlencoded", contents := "" },
        parameter := [("event", "heartbeat"), ("userId", "u1"), ("ts", "1700000000000")] }
    = ({ ok := true, error := none },
       some ["2023-11-14T22:13:20.000Z", "heartbeat", "", "u1", ""]) := rfl

/-- C6: a POST whose declared content type is neither form-urlencoded
nor JSON is answered with a failure body and appends no row. -/
theorem doPost_unsupported_type_rejected
    (jsonParse : String → Except String (List (String × String)))
    (append : List String → Except String Unit) (e : PostEvent)
    (h1 : e.postData.type ≠ "application/x-www-form-urlencoded")
    (h2 : e.postData.type ≠ "application/json") :
    doPost jsonParse append e
      = ({ ok := false, error := some ("Unsupported content type: " ++ e.postData.type) },
         none) := by
  simp [doPost, doPostParams, if_neg h1, if_neg h2]

/-- Witness for C6 at content type text/plain. -/
theorem doPost_unsupported_type_rejected_witness :
    doPost (fun _ => .error "parse") appendAlwaysOk
      { postData := { type := "text/plain", contents := "" }, parameter := [] }
    = ({ ok := false, error := some "Unsupported content type: text/plain" }, none) :=
  doPost_unsupported_type_rejected (fun _ => .error "parse") appendAlwaysOk
    { postData := { type := "text/plain", contents := "" }, parameter := [] }
    (by decide) (by decide)

/-- C7: doPost never faults: every call either appends exactly the row
it built and answers the success body, or appends nothing and answers a
failure body carrying an error message. -/
theorem doPost_total_atomic
    (jsonParse : String → Except String (List (String × String)))
    (append : List String → Except String Unit) (e : PostEvent) :
    (∃ row, doPost jsonParse append e = ({ ok := true, error := none }, some row)
        ∧ append row = .ok ())
    ∨ (∃ msg, doPost jsonParse append e = ({ ok := false, error := some msg }, none)) := by
  cases hp : doPostParams jsonParse e with
  | error msg => exact Or.inr ⟨msg, by simp [doPost, hp]⟩
  | ok params =>
    cases hb : buildRow params with
    | error msg => exact Or.inr ⟨msg, by simp [doPost, hp, hb]⟩
    | ok row =>
      cases ha : append row with
      | error msg => exact Or.inr ⟨msg, by simp [doPost, hp, hb, ha]⟩
      | ok u =>
        cases u
        exact Or.inl ⟨row, by simp [doPost, hp, hb, ha], ha⟩

/-- C10: under either supported encoding, so once the parameters were
obtained, if the three required fields are present but parseInt followed
by the Date conversion fails on the ts field, doPost answers a failure
body and appends no row. -/
theorem doPost_invalid_ts_rejected
    (jsonParse : String → Except String (List (String × String)))
    (append : List String → Except String Unit) (e : PostEvent)
    (params : List (String × String))
    (hp : doPostParams jsonParse e = .ok params)
    (hev : truthy (alistGet params "event") = true)
    (huid : truthy (alistGet params "userId") = true)
    (hts : truthy (alistGet params "ts") = true)
    (hbad : dateToISOString (parseIntJS ((alistGet params "ts").getD "")) = none) :
    doPost jsonParse append e = ({ ok := false, error := some "Invalid time value" }, none) := by
  simp [doPost, hp, buildRow, hev, huid, hts, hbad]

/-- Witness for C10 at a JSON-encoded POST whose parsed body carries
ts "abc". -/
theorem doPost_invalid_ts_rejected_witness :
    doPost (fun _ => .ok [("event", "heartbeat"), ("userId", "u1"), ("ts", "abc")])
      appendAlwaysOk
      { postData :=
          { type := "application/json",
            contents := "\x7b\"event\":\"heartbeat\",\"userId\":\"u1\",\"ts\":\"abc\"\x7d" },
        parameter := [] }
    = ({ ok := false, error := some "Invalid time value" }, none) :=
  doPost_invalid_ts_rejected
    (fun _ => .ok [("event", "heartbeat"), ("userId", "u1"), ("ts", "abc")])
    appendAlwaysOk
    { postData :=
        { type := "application/json",
          contents := "\x7b\"event\":\"heartbeat\",\"userId\":\"u1\",\"ts\":\"abc\"\x7d" },
      parameter := [] }
    [("event", "heartbeat"), ("userId", "u1"), ("ts", "abc")]
    rfl (by decide) (by decide) (by decide) (by decide)

/-- C8: identifier retrieval is idempotent: a stored nonempty identifier
is returned as is with the storage untouched, and after any first call a
second call returns the same identifier and leaves the storage of the
first call unchanged. -/
theorem getOrCreateUserId_idempotent (n1 : Nat) (r1 : String) (n2 : Nat) (r2 : String)
    (s : Storage) (u : String) (hu : lsGetItem s "uid" = some u) (hne : u ≠ "") :
    getOrCreateUserId n1 r1 s = (u, s)
    ∧ getOrCreateUserId n2 r2 (getOrCreateUserId n1 r1 s).2
      = ((getOrCreateUserId n1 r1 s).1, (getOrCreateUserId n1 r1 s).2) := by
  constructor
  · exact getOrCreateUserId_of_stored n1 r1 hu hne
  · exact getOrCreateUserId_of_stored n2 r2 (getOrCreateUserId_stores n1 r1 s)
      (getOrCreateUserId_fst_ne_empty n1 r1 s)

/-- Witness for C8 with the identifier u0 already stored. -/
theorem getOrCreateUserId_idempotent_witness :
    getOrCreateUserId 1 "a" [("uid", "u0")] = ("u0", [("uid", "u0")])
    ∧ getOrCreateUserId 2 "b" (getOrCreateUserId 1 "a" [("uid", "u0")]).2
      = ((getOrCreateUserId 1 "a" [("uid", "u0")]).1,
         (getOrCreateUserId 1 "a" [("uid", "u0")]).2) :=
  getOrCreateUserId_idempotent 1 "a" 2 "b" [("uid", "u0")] "u0" rfl (by decide)

/-- C4: when no endpoint URL is stored, or the stored URL does not end
with /exec, the submission stops with a configuration error: no request
body is built and the storage is untouched. -/
theorem sendLogSimple_config_guard (env : ClientEnv) (s : Storage) (p : Payload)
    (h : gasUrlOk s = false) :
    (sendLogSimple env s p).1.isConfigError = true ∧ (sendLogSimple env s p).2 = s := by
  rw [gasUrlOk, Bool.and_eq_false_iff] at h
  rw [sendLogSimple]
  rcases h with h | h
  · rw [if_pos h]
    exact ⟨rfl, rfl⟩
  · by_cases h1 : truthy (lsGetItem s "gas_url") = false
    · rw [if_pos h1]
      exact ⟨rfl, rfl⟩
    · rw [if_neg h1, if_pos h]
      exact ⟨rfl, rfl⟩

/-- Witness for C4 at a stored URL that does not end with /exec. -/
theorem sendLogSimple_config_guard_witness :
    gasUrlOk [("gas_url", "https://script.google.com/macros/s/X/dev")] = false
    ∧ (sendLogSimple ⟨0, "r", 0, "/", "ua"⟩
        [("gas_url", "https://script.google.com/macros/s/X/dev")]
        ⟨"heartbeat", none, []⟩).1.isConfigError = true
    ∧ (sendLogSimple ⟨0, "r", 0, "/", "ua"⟩
        [("gas_url", "https://script.google.com/macros/s/X/dev")]
        ⟨"heartbeat", none, []⟩).2
      = [("gas_url", "https://script.google.com/macros/s/X/dev")] :=
  ⟨by decide,
   sendLogSimple_config_guard ⟨0, "r", 0, "/", "ua"⟩
     [("gas_url", "https://script.google.com/macros/s/X/dev")]
     ⟨"heartbeat", none, []⟩ (by decide)⟩

/-- C9: the save-URL click handler rejects a blank input with an error
and persists nothing; any input with a nonempty trim is persisted under
gas_url and success is the message left showing, with the
implausible-URL warning shown before it rather than blocking. -/
theorem saveUrlClick_spec (value : String) (s : Storage) :
    (jsTrim value = "" → saveUrlClick value s = ([("Please enter a URL", true)], s))
    ∧ (jsTrim value ≠ "" →
        lsGetItem (saveUrlClick value s).2 "gas_url" = some (jsTrim value)
        ∧ (saveUrlClick value s).1.getLast? = some ("URL saved", false))
    ∧ (jsTrim value ≠ "" →
        (jsStartsWith (jsTrim value) "https://" = false
          ∨ strIncludes (jsTrim value) "google.com" = false) →
        (saveUrlClick value s).1
          = [("Warning: URL may not be valid", true), ("URL saved", false)]) := by
  refine ⟨fun h => ?_, fun h => ?_, fun h hw => ?_⟩
  · rw [saveUrlClick, if_pos h]
  · rw [saveUrlClick, if_neg h]
    refine ⟨?_, ?_⟩
    · simp [lsGetItem, lsSetItem, alistGet]
    · by_cases hw : jsStartsWith (jsTrim value) "https://" = false
        ∨ strIncludes (jsTrim value) "google.com" = false
      · simp [if_pos hw]
      · simp [if_neg hw]
  · rw [saveUrlClick, if_neg h]
    simp [if_pos hw]

/-- Witness for C9 at a plausible URL with surrounding whitespace. -/
theorem saveUrlClick_spec_witness :
    jsTrim " https://a.google.com/exec " ≠ ""
    ∧ lsGetItem (saveUrlClick " https://a.google.com/exec " []).2 "gas_url"
      = some "https://a.google.com/exec"
    ∧ (saveUrlClick " https://a.google.com/exec " []).1.getLast?
      = some ("URL saved", false) := by
  have h := saveUrlClick_spec " https://a.google.com/exec " []
  have hne : jsTrim " https://a.google.com/exec " ≠ "" := by decide
  have h2 := h.2.1 hne
  have htrim : jsTrim " https://a.google.com/exec " = "https://a.google.com/exec" := by decide
  exact ⟨hne, htrim ▸ h2.1, h2.2⟩

/-- C2: over a supported encoding, so once the parameters were obtained,
doPost answers the missing-parameters validation error, appending no
row, exactly when one of the three required fields event, userId, ts is
absent or empty; the optional variant and meta fields play no part in
the test. -/
theorem doPost_validation_iff_missing
    (jsonParse : String → Except String (List (String × String))) (e : PostEvent)
    (params : List (String × String))
    (hp : doPostParams jsonParse e = .ok params) :
    (doPost jsonParse appendAlwaysOk e
        = ({ ok := false, error := some "Missing required parameters" }, none))
    ↔ ¬ (truthy (alistGet params "event") = true
        ∧ truthy (alistGet params "userId") = true
        ∧ truthy (alistGet params "ts") = true) := by
  by_cases hm : truthy (alistGet params "event") = true
      ∧ truthy (alistGet params "userId") = true
      ∧ truthy (alistGet params "ts") = true
  · obtain ⟨h1, h2, h3⟩ := hm
    cases hiso : dateToISOString (parseIntJS ((alistGet params "ts").getD "")) with
    | none =>
      have hval : doPost jsonParse appendAlwaysOk e
          = ({ ok := false, error := some "Invalid time value" }, none) := by
        simp [doPost, hp, buildRow, h1, h2, h3, hiso]
      apply iff_of_false
      · rw [hval]
        intro hEq
        simp at hEq
      · exact fun hc => hc ⟨h1, h2, h3⟩
    | some iso =>
      have hval : doPost jsonParse appendAlwaysOk e
          = ({ ok := true, error := none },
             some [iso, (alistGet params "event").getD "", jsOrEmpty (alistGet params "variant"),
               (alistGet params "userId").getD "", jsOrEmpty (alistGet params "meta")]) := by
        simp [doPost, hp, buildRow, h1, h2, h3, hiso, appendAlwaysOk]
      apply iff_of_false
      · rw [hval]
        intro hEq
        simp at hEq
      · exact fun hc => hc ⟨h1, h2, h3⟩
  · apply iff_of_true
    · have hbr : buildRow params = .error "Missing required parameters" := by
        rw [buildRow, if_pos hm]
      simp [doPost, hp, hbr]
    · exact hm

/-- Witness for C2 at a form request with the event field absent. -/
theorem doPost_validation_iff_missing_witness :
    (doPost (fun _ => .error "parse") appendAlwaysOk
        { postData := { type := "application/x-www-form-urlencoded", contents := "" },
          parameter := [("userId", "u1"), ("ts", "1")] }
      = ({ ok := false, error := some "Missing required parameters" }, none))
    ↔ ¬ (truthy (alistGet [("userId", "u1"), ("ts", "1")] "event") = true
        ∧ truthy (alistGet [("userId", "u1"), ("ts", "1")] "userId") = true
        ∧ truthy (alistGet [("userId", "u1"), ("ts", "1")] "ts") = true) :=
  doPost_validation_iff_missing (fun _ => .error "parse")
    { postData := { type := "application/x-www-form-urlencoded", contents := "" },
      parameter := [("userId", "u1"), ("ts", "1")] }
    [("userId", "u1"), ("ts", "1")] rfl

/-- C3: with a valid stored endpoint, the submitted body is exactly the
field list event, variant when provided, userId, ts, meta, in that
order; the identifier is nonempty, the ts string parses back to the
submission time in milliseconds, and the serialized meta object is the
page and user-agent context overridden by the caller fields, which win
on key collision. -/
theorem sendLogSimple_body_spec (env : ClientEnv) (s : Storage) (p : Payload)
    (hok : gasUrlOk s = true)
    (hvar : p.variant ≠ some "")
    (hnd : (p.meta.map Prod.fst).Nodup) :
    sendLogSimple env s p
      = (.sent ([("event", p.event)]
          ++ (match p.variant with | some v => [("variant", v)] | none => [])
          ++ [("userId", (getOrCreateUserId env.uidNowMs env.uidRandPart s).1),
            ("ts", jsNatToString env.nowMs),
            ("meta", Json.stringify (.obj (metaMerged env p)))]),
         (getOrCreateUserId env.uidNowMs env.uidRandPart s).2)
    ∧ (getOrCreateUserId env.uidNowMs env.uidRandPart s).1 ≠ ""
    ∧ parseIntJS (jsNatToString env.nowMs) = some (env.nowMs : Int)
    ∧ (∀ k v, alistGet p.meta k = some v → alistGet (metaMerged env p) k = some v)
    ∧ (alistGet p.meta "page" = none
        → alistGet (metaMerged env p) "page" = some (.str env.pagePath))
    ∧ (alistGet p.meta "ua" = none
        → alistGet (metaMerged env p) "ua" = some (.str env.userAgent)) := by
  rw [gasUrlOk, Bool.and_eq_true] at hok
  obtain ⟨h1, h2⟩ := hok
  refine ⟨?_, getOrCreateUserId_fst_ne_empty _ _ _, parseIntJS_jsNatToString _, ?_, ?_, ?_⟩
  · rw [sendLogSimple, if_neg (by simp [h1]), if_neg (by simp [h2])]
    cases hv : p.variant with
    | none => rfl
    | some v =>
      have hv' : v ≠ "" := fun hc => hvar (by rw [hv, hc])
      simp [hv']
  · intro k v hkv
    exact alistGet_objMergeSpread_of_some hnd hkv
  · intro hnone
    rw [metaMerged, alistGet_objMergeSpread_of_none hnone]
    simp [alistGet]
  · intro hnone
    rw [metaMerged, alistGet_objMergeSpread_of_none hnone]
    simp [alistGet]

/-- Witness for C3 at a cta_click submission with variant A. -/
theorem sendLogSimple_body_spec_witness :
    (sendLogSimple ⟨1, "r", 5, "/p", "UA"⟩
        [("gas_url", "https://script.google.com/macros/s/X/exec")]
        ⟨"cta_click", some "A", []⟩).1
      = .sent [("event", "cta_click"), ("variant", "A"), ("userId", "usr_1_r"), ("ts", "5"),
          ("meta", "\x7b\"page\":\"/p\",\"ua\":\"UA\"\x7d")] := by
  have h := sendLogSimple_body_spec ⟨1, "r", 5, "/p", "UA"⟩
    [("gas_url", "https://script.google.com/macros/s/X/exec")]
    ⟨"cta_click", some "A", []⟩ (by decide) (by decide) (by decide)
  have h2 := congrArg Prod.fst h.1
  rw [h2]
  decide

/-- C5: the meta string of the client body is stored untouched: for a
submission that was sent, relaying its body as a form POST makes doPost
append a row whose meta column is character for character the JSON
string the client serialized, which is also exactly the body's meta
field. -/
theorem meta_round_trip
    (jsonParse : String → Except String (List (String × String)))
    (env : ClientEnv) (s : Storage) (p : Payload)
    (hok : gasUrlOk s = true) (hev : p.event ≠ "")
    (hts : env.nowMs ≤ 8640000000000000)
    (body : List (String × String)) (s' : Storage)
    (hsend : sendLogSimple env s p = (.sent body, s')) :
    alistGet body "meta" = some (Json.stringify (.obj (metaMerged env p)))
    ∧ doPost jsonParse appendAlwaysOk
        { postData := { type := "application/x-www-form-urlencoded", contents := "" },
          parameter := body }
      = ({ ok := true, error := none },
         some [isoFromMs (env.nowMs : Int), p.event, jsOrEmpty (alistGet body "variant"),
           (getOrCreateUserId env.uidNowMs env.uidRandPart s).1,
           Json.stringify (.obj (metaMerged env p))]) := by
  rw [gasUrlOk, Bool.and_eq_true] at hok
  obtain ⟨h1, h2⟩ := hok
  rw [sendLogSimple, if_neg (by simp [h1]), if_neg (by simp [h2])] at hsend
  simp only [Prod.mk.injEq, SendOutcome.sent.injEq] at hsend
  obtain ⟨hb, hs⟩ := hsend
  subst hb
  have hu := getOrCreateUserId_fst_ne_empty env.uidNowMs env.uidRandPart s
  have hJ := stringify_obj_ne_empty (metaMerged env p)
  have hT := jsNatToString_ne_empty env.nowMs
  have hP := parseIntJS_jsNatToString env.nowMs
  have hvalid : jsTimeValid (env.nowMs : Int) = true := by
    simp [jsTimeValid, hts]
  rcases p.variant with _ | v
  · constructor
    · simp [alistGet]
    · simp [doPost, doPostParams, buildRow, alistGet, truthy, hev, hu, hT, hP,
        dateToISOString, hvalid, jsOrEmpty, hJ, appendAlwaysOk]
  · by_cases hv : v = ""
    · subst hv
      constructor
      · simp [alistGet]
      · simp [doPost, doPostParams, buildRow, alistGet, truthy, hev, hu, hT, hP,
          dateToISOString, hvalid, jsOrEmpty, hJ, appendAlwaysOk]
    · constructor
      · simp [alistGet, hv]
      · simp [doPost, doPostParams, buildRow, alistGet, truthy, hev, hu, hT, hP,
          dateToISOString, hvalid, jsOrEmpty, hJ, appendAlwaysOk, hv]

/-- Witness for C5 at a concrete cta_click submission. -/
theorem meta_round_trip_witness :
    alistGet [("event", "cta_click"), ("variant", "A"), ("userId", "usr_1_r"), ("ts", "5"),
        ("meta", "\x7b\"page\":\"/p\",\"ua\":\"UA\"\x7d")] "meta"
      = some (Json.stringify (.obj (metaMerged ⟨1, "r", 5, "/p", "UA"⟩ ⟨"cta_click", some "A", []⟩)))
    ∧ doPost (fun _ => .error "parse") appendAlwaysOk
        { postData := { type := "application/x-www-form-urlencoded", contents := "" },
          parameter := [("event", "cta_click"), ("variant", "A"), ("userId", "usr_1_r"),
            ("ts", "5"), ("meta", "\x7b\"page\":\"/p\",\"ua\":\"UA\"\x7d")] }
      = ({ ok := true, error := none },
         some [isoFromMs ((5 : Nat) : Int), "cta_click",
           jsOrEmpty (alistGet [("event", "cta_click"), ("variant", "A"), ("userId", "usr_1_r"),
             ("ts", "5"), ("meta", "\x7b\"page\":\"/p\",\"ua\":\"UA\"\x7d")] "variant"),
           (getOrCreateUserId 1 "r" [("gas_url", "https://a.google.com/exec")]).1,
           Json.stringify (.obj (metaMerged ⟨1, "r", 5, "/p", "UA"⟩ ⟨"cta_click", some "A", []⟩))]) :=
  meta_round_trip (fun _ => .error "parse") ⟨1, "r", 5, "/p", "UA"⟩
    [("gas_url", "https://a.google.com/exec")] ⟨"cta_click", some "A", []⟩
    (by decide) (by decide) (by decide)
    [("event", "cta_click"), ("variant", "A"), ("userId", "usr_1_r"), ("ts", "5"),
      ("meta", "\x7b\"page\":\"/p\",\"ua\":\"UA\"\x7d")]
    [("uid", "usr_1_r"), ("gas_url", "https://a.google.com/exec")]
    (by decide)

end EventLogger
